import Mathlib

/-!
Verification of warp's WebSocket filter module (`src/filters/ws.rs`).

The file shallowly embeds the data model and operations of the module:
the accept-key computation (`Accept::from_str`, SHA-1 + base64), the
handshake filter composition (`ws_new`), the `Connection` header predicate
(`connection_has_upgrade`), the handshake reply (`Ws::into_response`),
the stream side of the channel (`<WebSocket as Stream>::poll`), the sink
side (`<WebSocket as Sink>::start_send`) and the `Message` constructors
and accessors.  Machine integers are modelled as `Nat` reduced mod `2^32`
where the Rust code computes on `u32`; bytes are `Nat` values below 256.
-/

namespace WarpWs

/-! ## Bytes and UTF-8

A Rust `&[u8]` is a `List Nat` of values `< 256`; `str::as_bytes` is the
UTF-8 encoding of the string. -/

/-- UTF-8 encoding of a single character, as byte values. -/
def utf8Char (c : Char) : List Nat :=
  let n := c.toNat
  if n < 128 then [n]
  else if n < 2048 then [192 + n / 64, 128 + n % 64]
  else if n < 65536 then [224 + n / 4096, 128 + (n / 64) % 64, 128 + n % 64]
  else [240 + n / 262144, 128 + (n / 4096) % 64, 128 + (n / 64) % 64, 128 + n % 64]

/-- The UTF-8 bytes of a string (Rust `str::as_bytes`). -/
def strBytes (s : String) : List Nat :=
  (s.toList.map utf8Char).flatten

/-! ## SHA-1 (as used by `Accept::from_str`)

Direct embedding of the SHA-1 algorithm run by the `sha1` crate:
words are `Nat` values reduced mod `2^32`. -/

/-- Truncate to a 32-bit word. -/
def w32 (n : Nat) : Nat := n % 4294967296

/-- Left-rotate a 32-bit word by `b` bits. -/
def rotl (b n : Nat) : Nat :=
  w32 ((w32 n <<< b) ||| (w32 n >>> (32 - b)))

/-- Group a byte list into big-endian 32-bit words. -/
def bytesToWords : List Nat → List Nat
  | b0 :: b1 :: b2 :: b3 :: rest =>
      (b0 * 16777216 + b1 * 65536 + b2 * 256 + b3) :: bytesToWords rest
  | _ => []

/-- Big-endian bytes of a 32-bit word. -/
def wordToBytes (w : Nat) : List Nat :=
  [w / 16777216 % 256, w / 65536 % 256, w / 256 % 256, w % 256]

/-- Big-endian bytes of a 64-bit length field. -/
def lenToBytes8 (n : Nat) : List Nat :=
  [n / 72057594037927936 % 256, n / 281474976710656 % 256,
   n / 1099511627776 % 256, n / 4294967296 % 256,
   n / 16777216 % 256, n / 65536 % 256, n / 256 % 256, n % 256]

/-- SHA-1 padding for a message of `len` bytes: `0x80`, zeros to 56 mod 64,
then the bit length as 8 big-endian bytes. -/
def sha1Padding (len : Nat) : List Nat :=
  128 :: List.replicate ((119 - len % 64) % 64) 0 ++ lenToBytes8 (8 * len)

/-- Extend the 16 schedule words by `n` more words
(`w i = rotl 1 (w (i-3) xxx w (i-8) xxx w (i-14) xxx w (i-16))`). -/
def sha1Extend : Nat → List Nat → List Nat
  | 0, acc => acc
  | n + 1, acc =>
      let len := acc.length
      let nw := rotl 1 ((acc.getD (len - 3) 0 ^^^ acc.getD (len - 8) 0) ^^^
                        (acc.getD (len - 14) 0 ^^^ acc.getD (len - 16) 0))
      sha1Extend n (acc ++ [nw])

/-- One SHA-1 round: state `(a,b,c,d,e)`, round index `i`, schedule word `w`. -/
def sha1Round (st : Nat × Nat × Nat × Nat × Nat) (iw : Nat × Nat) :
    Nat × Nat × Nat × Nat × Nat :=
  let (a, b, c, d, e) := st
  let (i, w) := iw
  let f :=
    if i < 20 then (b &&& c) ||| ((b ^^^ 4294967295) &&& d)
    else if i < 40 then (b ^^^ c) ^^^ d
    else if i < 60 then ((b &&& c) ||| (b &&& d)) ||| (c &&& d)
    else (b ^^^ c) ^^^ d
  let k :=
    if i < 20 then 1518500249
    else if i < 40 then 1859775393
    else if i < 60 then 2400959708
    else 3395469782
  let temp := w32 (rotl 5 a + f + e + k + w)
  (temp, a, rotl 30 b, c, d)

/-- Compress one 64-byte block into the running hash state. -/
def sha1Compress (h : List Nat) (block : List Nat) : List Nat :=
  let ws := sha1Extend 64 (bytesToWords block)
  let h0 := h.getD 0 0
  let h1 := h.getD 1 0
  let h2 := h.getD 2 0
  let h3 := h.getD 3 0
  let h4 := h.getD 4 0
  let fin := ws.enum.foldl sha1Round (h0, h1, h2, h3, h4)
  [w32 (h0 + fin.1), w32 (h1 + fin.2.1), w32 (h2 + fin.2.2.1),
   w32 (h3 + fin.2.2.2.1), w32 (h4 + fin.2.2.2.2)]

/-- Split a byte list into 64-byte chunks (fuel-driven, fuel ≥ length). -/
def chunks64 : Nat → List Nat → List (List Nat)
  | 0, _ => []
  | _, [] => []
  | fuel + 1, l => l.take 64 :: chunks64 fuel (l.drop 64)

/-- SHA-1 digest (20 bytes) of a byte list. -/
def sha1 (msg : List Nat) : List Nat :=
  let padded := msg ++ sha1Padding msg.length
  let blocks := chunks64 padded.length padded
  let h := blocks.foldl sha1Compress
    [1732584193, 4023233417, 2562383102, 271733878, 3285377520]
  (h.map wordToBytes).flatten

/-! ## Base64 (as used by `base64::encode`) -/

/-- The standard base64 alphabet. -/
def base64Alphabet : List Char :=
  "ABCDEFGHIJKLMNOPQRSTUVWXYZabcdefghijklmnopqrstuvwxyz0123456789+/".toList

/-- Character for a 6-bit value. -/
def base64Digit (n : Nat) : Char := base64Alphabet.getD n 'A'

/-- Standard base64 encoding with `=` padding. -/
def base64Encode : List Nat → List Char
  | [] => []
  | [b0] =>
      [base64Digit (b0 / 4), base64Digit (b0 % 4 * 16), '=', '=']
  | [b0, b1] =>
      [base64Digit (b0 / 4), base64Digit (b0 % 4 * 16 + b1 / 16),
       base64Digit (b1 % 16 * 4), '=']
  | b0 :: b1 :: b2 :: rest =>
      base64Digit (b0 / 4) :: base64Digit (b0 % 4 * 16 + b1 / 16) ::
      base64Digit (b1 % 16 * 4 + b2 / 64) :: base64Digit (b2 % 64) ::
      base64Encode rest

/-! ## `Accept` and `Accept::from_str` -/

/-- The uninhabited `never::Never` error type of `Accept::from_str`. -/
inductive Never : Type
deriving DecidableEq

/-- The `Accept` newtype around the computed accept-key string. -/
structure Accept where
  val : String
deriving DecidableEq, Repr

/-- The fixed 36-byte GUID literal fed to the hash after the key bytes. -/
def wsGuidBytes : List Nat := strBytes "258EAFA5-E914-47DA-95CA-C5AB0DC85B11"

/-- `Accept::from_str`: SHA-1 over the key bytes followed by the GUID bytes,
then base64; infallible (`Err = Never`). -/
def Accept.from_str (s : String) : Except Never Accept :=
  Except.ok ⟨String.mk (base64Encode (sha1 (strBytes s ++ wsGuidBytes)))⟩

/-! ## Header values

A `HeaderValue` is its byte sequence.  `HeaderValue::to_str` (http crate,
external collaborator) succeeds exactly when every byte is visible ASCII
or horizontal tab, and then yields those bytes as characters. -/

/-- A header value: a raw byte sequence. -/
abbrev HeaderValue : Type := List Nat

/-- `HeaderValue::to_str`: `some` iff every byte is visible ASCII or tab. -/
def headerValueToStr (v : HeaderValue) : Option String :=
  if v.all (fun b => (32 ≤ b && b ≤ 126) || b == 9) then
    some (String.mk (v.map Char.ofNat))
  else none

/-- ASCII lowercase of a character. -/
def asciiLowerChar (c : Char) : Char :=
  if 65 ≤ c.toNat && c.toNat ≤ 90 then Char.ofNat (c.toNat + 32) else c

/-- Rust `eq_ignore_ascii_case` on character lists. -/
def eqIgnoreAsciiCase (a b : List Char) : Bool :=
  a.map asciiLowerChar == b.map asciiLowerChar

/-- Split a character list on the two-character separator `", "`
(leftmost-first, non-overlapping), as Rust `str::split(", ")` does.
The second argument accumulates the current token reversed. -/
def splitCommaSpace : List Char → List Char → List (List Char)
  | [], cur => [cur.reverse]
  | ',' :: ' ' :: rest, cur => cur.reverse :: splitCommaSpace rest []
  | c :: rest, cur => splitCommaSpace rest (c :: cur)

/-- The `for` loop of `connection_has_upgrade`: first token equal
(ASCII-case-insensitively) to `"upgrade"` returns `some ()`. -/
def hasUpgradeTok : List (List Char) → Option Unit
  | [] => none
  | t :: ts =>
      if eqIgnoreAsciiCase t ("upgrade".toList) then some () else hasUpgradeTok ts

/-- `connection_has_upgrade`: read the value as a string, split on `", "`,
accept iff some token equals `upgrade` ignoring ASCII case. -/
def connection_has_upgrade (v : HeaderValue) : Option Unit :=
  (headerValueToStr v).bind (fun s => hasUpgradeTok (splitCommaSpace s.toList []))

/-! ## The request model and the filter composition of `ws_new` -/

/-- A parsed request: its method and its headers (names already
lower-cased, as the http crate stores them). -/
structure Request where
  method : String
  headers : List (String × HeaderValue)

/-- First header with the given name, if any. -/
def getHeader (req : Request) (name : String) : Option HeaderValue :=
  (req.headers.find? (fun p => p.1 == name)).map Prod.snd

/-- Modelled from the spec: warp's `header::if_value` combinator (declared
outside `src/`) — matches exactly when the named header is present and the
supplied predicate returns `some` on its value. -/
def ifValueHeader (name : String) (pred : HeaderValue → Option Unit)
    (req : Request) : Bool :=
  match getHeader req name with
  | some v => (pred v).isSome
  | none => false

/-- ASCII lowercase of a byte. -/
def asciiLowerByte (b : Nat) : Nat :=
  if 65 ≤ b && b ≤ 90 then b + 32 else b

/-- Modelled from the spec: warp's `header::exact_ignore_case` combinator
(declared outside `src/`) — matches exactly when the named header is
present and its value equals the expected string ASCII-case-insensitively. -/
def exactIgnoreCaseHeader (name expected : String) (req : Request) : Bool :=
  match getHeader req name with
  | some v => v.map asciiLowerByte == (strBytes expected).map asciiLowerByte
  | none => false

/-- Modelled from the spec: warp's `header::exact` combinator (declared
outside `src/`) — matches exactly when the named header is present and its
value equals the expected string byte-for-byte. -/
def exactHeader (name expected : String) (req : Request) : Bool :=
  match getHeader req name with
  | some v => v == strBytes expected
  | none => false

/-- Modelled from the spec: warp's `header::header::<Accept>` combinator
(declared outside `src/`) — the named header must be present and readable
as a string, which is then parsed with `Accept::from_str` (infallible). -/
def parseKeyHeader (name : String) (req : Request) : Option Accept :=
  match getHeader req name with
  | some v =>
      match headerValueToStr v with
      | some s =>
          match Accept.from_str s with
          | Except.ok a => some a
      | none => none
  | none => none

/-- The `Ws` reply value carrying the computed accept key. -/
structure Ws where
  accept : Accept
deriving DecidableEq

/-- The filter composition of `ws_new` applied to one request: `::get`
(method must be `GET`, modelled from the spec since it is declared outside
`src/`) and the four header filters; on a match it yields the `Ws` reply
built from the parsed accept key, otherwise the request is rejected
(`none`). -/
def ws_new (req : Request) : Option Ws :=
  if req.method == "GET" &&
     ifValueHeader "connection" connection_has_upgrade req &&
     exactIgnoreCaseHeader "upgrade" "websocket" req &&
     exactHeader "sec-websocket-version" "13" req
  then
    match parseKeyHeader "sec-websocket-key" req with
    | some a => some ⟨a⟩
    | none => none
  else none

/-! ## The handshake reply (`Ws::into_response`) -/

/-- An HTTP response: status, header list in insertion order, body bytes. -/
structure Response where
  status : Nat
  headers : List (String × String)
  body : List Nat
deriving DecidableEq, Repr

/-- The state of `http::Response::builder()`. -/
structure ResponseBuilder where
  status : Nat
  headers : List (String × String)

/-- `http::Response::builder()` starts at status 200 with no headers. -/
def responseBuilder : ResponseBuilder := ⟨200, []⟩

/-- The builder's `status` setter. -/
def ResponseBuilder.withStatus (b : ResponseBuilder) (s : Nat) : ResponseBuilder :=
  ⟨s, b.headers⟩

/-- The builder's `header` setter: appends a header. -/
def ResponseBuilder.withHeader (b : ResponseBuilder) (n v : String) : ResponseBuilder :=
  ⟨b.status, b.headers ++ [(n, v)]⟩

/-- The builder's `body` finaliser. -/
def ResponseBuilder.buildBody (b : ResponseBuilder) (body : List Nat) : Response :=
  ⟨b.status, b.headers, body⟩

/-- `<Ws as ReplySealed>::into_response`: status 101, the three headers,
empty (`Default::default()`) body. -/
def Ws.into_response (w : Ws) : Response :=
  ((((responseBuilder.withStatus 101).withHeader "connection" "upgrade").withHeader
      "upgrade" "websocket").withHeader
      "sec-websocket-accept" w.accept.val).buildBody []

/-! ## Protocol messages and the `Message` wrapper

`tungstenite::protocol::Message` of the vendored version has exactly the
four variants matched in `ws.rs`: `Text`, `Binary`, `Ping`, `Pong`
(a close arrives as the `ConnectionClosed` error, not as a message). -/

/-- `protocol::Message`. -/
inductive PMsg : Type
  | text (s : String)
  | binary (b : List Nat)
  | ping (p : List Nat)
  | pong (p : List Nat)
deriving DecidableEq, Repr

/-- warp's `Message`: a wrapper around a protocol message. -/
structure Message where
  inner : PMsg
deriving DecidableEq, Repr

/-- `Message::text`. -/
def Message.text (s : String) : Message := ⟨PMsg.text s⟩

/-- `Message::binary`. -/
def Message.binary (v : List Nat) : Message := ⟨PMsg.binary v⟩

/-- `Message::is_text` (via `protocol::Message::is_text`). -/
def Message.is_text (m : Message) : Bool :=
  match m.inner with
  | PMsg.text _ => true
  | _ => false

/-- `Message::is_binary` (via `protocol::Message::is_binary`). -/
def Message.is_binary (m : Message) : Bool :=
  match m.inner with
  | PMsg.binary _ => true
  | _ => false

/-- `Message::to_str`: the text, or `Err(())`. -/
def Message.to_str (m : Message) : Except Unit String :=
  match m.inner with
  | PMsg.text s => Except.ok s
  | _ => Except.error ()

/-- `Message::as_bytes`: `none` models the `unreachable` arm taken on a
control frame. -/
def Message.as_bytes (m : Message) : Option (List Nat) :=
  match m.inner with
  | PMsg.text s => some (strBytes s)
  | PMsg.binary v => some v
  | _ => none

/-! ## The stream side: `<WebSocket as Stream>::poll`

The framing layer (tokio-tungstenite, external collaborator) is modelled
by the finite sequence of results its `poll` yields, and by an oracle for
the result of its `start_send` (consulted for the automatic pong and then
discarded, as `let _ = ...` does). -/

/-- The error type `::Error` as produced here: always `Kind::Ws(e)`. -/
inductive ErrorKind : Type
  | ws (e : String)
deriving DecidableEq, Repr

/-- One result of `self.inner.poll()`. -/
inductive InnerPoll : Type
  | readySome (m : PMsg)
  | readyNone
  | notReady
  | closedErr
  | otherErr (e : String)
deriving DecidableEq, Repr

/-- One result of `self.inner.start_send(..)`. -/
inductive SinkRes : Type
  | ready
  | notReadyRes (m : PMsg)
  | errRes (e : String)
deriving DecidableEq, Repr

/-- The outcome one call of `<WebSocket as Stream>::poll` returns. -/
inductive PollOut : Type
  | item (m : Message)
  | done
  | pending
  | failed (k : ErrorKind)
deriving DecidableEq, Repr

/-- `<WebSocket as Stream>::poll`: the loop, consuming the framing layer's
results in order.  Returns the outcome (`none` only when the supplied
finite trace runs out mid-loop), the results left unconsumed, and the
frames whose `start_send` was attempted during the call, in order.  `sr`
gives the framing layer's answer to each attempted pong send; the code
discards it (`let _ = ...`). -/
def WebSocket.poll (sr : List Nat → SinkRes) :
    List InnerPoll → Option PollOut × List InnerPoll × List PMsg
  | [] => (none, [], [])
  | InnerPoll.readySome (PMsg.text s) :: rest =>
      (some (PollOut.item ⟨PMsg.text s⟩), rest, [])
  | InnerPoll.readySome (PMsg.binary b) :: rest =>
      (some (PollOut.item ⟨PMsg.binary b⟩), rest, [])
  | InnerPoll.readySome (PMsg.ping p) :: rest =>
      let _discarded := sr p
      let r := WebSocket.poll sr rest
      (r.1, r.2.1, PMsg.pong p :: r.2.2)
  | InnerPoll.readySome (PMsg.pong _) :: rest => WebSocket.poll sr rest
  | InnerPoll.readyNone :: rest => (some PollOut.done, rest, [])
  | InnerPoll.notReady :: rest => (some PollOut.pending, rest, [])
  | InnerPoll.closedErr :: rest => (some PollOut.done, rest, [])
  | InnerPoll.otherErr e :: rest => (some (PollOut.failed (ErrorKind.ws e)), rest, [])

/-! ## The sink side: `<WebSocket as Sink>::start_send` -/

/-- The `AsyncSink` result of `start_send`. -/
inductive StartSend : Type
  | ready
  | notReadyItem (m : Message)
deriving DecidableEq, Repr

/-- `<WebSocket as Sink>::start_send`: forward the wrapped frame to the
framing layer; re-wrap a handed-back frame, wrap an error in `Kind::Ws`. -/
def WebSocket.start_send (inner : PMsg → SinkRes) (item : Message) :
    Except ErrorKind StartSend :=
  match inner item.inner with
  | SinkRes.ready => Except.ok StartSend.ready
  | SinkRes.notReadyRes pm => Except.ok (StartSend.notReadyItem ⟨pm⟩)
  | SinkRes.errRes e => Except.error (ErrorKind.ws e)

/-! ## The spec-side formulation of the Connection-header predicate -/

/-- The Connection-header acceptance criterion as the spec words it: the
value, interpreted as a string, split on the separator `", "`, contains a
token case-insensitively equal to `"upgrade"`; an unreadable value is
rejected. -/
def specConnectionHasUpgrade (v : HeaderValue) : Bool :=
  match headerValueToStr v with
  | some s => (splitCommaSpace s.toList []).any
      (fun t => eqIgnoreAsciiCase t ("upgrade".toList))
  | none => false

/-! ## The five handshake preconditions (for C5) -/

/-- Precondition 1: the method is `GET`. -/
def precondGet (req : Request) : Prop := req.method = "GET"

/-- Precondition 2: the `Connection` header is present and carries an
`upgrade` token. -/
def precondConnection (req : Request) : Prop :=
  ∃ v, getHeader req "connection" = some v ∧
    (connection_has_upgrade v).isSome = true

/-- Precondition 3: the `Upgrade` header is present and equals `websocket`
ASCII-case-insensitively. -/
def precondUpgrade (req : Request) : Prop :=
  ∃ v, getHeader req "upgrade" = some v ∧
    v.map asciiLowerByte = (strBytes "websocket").map asciiLowerByte

/-- Precondition 4: the `Sec-WebSocket-Version` header is exactly `13`. -/
def precondVersion (req : Request) : Prop :=
  getHeader req "sec-websocket-version" = some (strBytes "13")

/-- Precondition 5: the `Sec-WebSocket-Key` header is present and readable
as a string. -/
def precondKey (req : Request) : Prop :=
  ∃ v, getHeader req "sec-websocket-key" = some v ∧
    (headerValueToStr v).isSome = true

/-- A `Message` value reachable through the public interface: built by
`Message::text` or `Message::binary`, or yielded by the stream side. -/
def reachableMessage (m : Message) : Prop :=
  (∃ s, m = Message.text s) ∨ (∃ v, m = Message.binary v) ∨
  (∃ (sr : List Nat → SinkRes) (l rem : List InnerPoll) (sends : List PMsg),
    WebSocket.poll sr l = (some (PollOut.item m), rem, sends))

/-! ## Helper lemmas -/

/-- One compression step always yields a five-word state. -/
theorem sha1Compress_length (h block : List Nat) :
    (sha1Compress h block).length = 5 := rfl

/-- Folding compression over any block list preserves the five-word state. -/
theorem foldl_sha1Compress_length (blocks : List (List Nat)) (h : List Nat)
    (hh : h.length = 5) : (blocks.foldl sha1Compress h).length = 5 := by
  induction blocks generalizing h with
  | nil => exact hh
  | cons b bs ih => exact ih _ (sha1Compress_length _ _)

/-- Serialising a five-word state yields twenty bytes. -/
theorem flatten_wordToBytes_length (h : List Nat) (hh : h.length = 5) :
    ((h.map wordToBytes).flatten).length = 20 := by
  match h, hh with
  | [a, b, c, d, e], _ => rfl

/-- The SHA-1 digest always has twenty bytes. -/
theorem sha1_length (msg : List Nat) : (sha1 msg).length = 20 :=
  flatten_wordToBytes_length _ (foldl_sha1Compress_length _ _ rfl)

/-- Any message the poll loop yields wraps a text or binary frame. -/
theorem poll_item_shape (sr : List Nat → SinkRes) :
    ∀ (l : List InnerPoll) (m : Message) (rem : List InnerPoll)
      (sends : List PMsg),
      WebSocket.poll sr l = (some (PollOut.item m), rem, sends) →
      (∃ s, m.inner = PMsg.text s) ∨ (∃ b, m.inner = PMsg.binary b) := by
  intro l
  induction l with
  | nil => intro m rem sends h; simp [WebSocket.poll] at h
  | cons hd tl ih =>
    intro m rem sends h
    match hd with
    | InnerPoll.readySome (PMsg.text s) =>
        simp [WebSocket.poll, Prod.ext_iff] at h
        exact Or.inl ⟨s, by rw [← h.1]⟩
    | InnerPoll.readySome (PMsg.binary b) =>
        simp [WebSocket.poll, Prod.ext_iff] at h
        exact Or.inr ⟨b, by rw [← h.1]⟩
    | InnerPoll.readySome (PMsg.ping p) =>
        simp only [WebSocket.poll, Prod.ext_iff] at h
        exact ih m _ _ (by rw [← h.1])
    | InnerPoll.readySome (PMsg.pong p) =>
        exact ih m rem sends h
    | InnerPoll.readyNone => simp [WebSocket.poll, Prod.ext_iff] at h
    | InnerPoll.notReady => simp [WebSocket.poll, Prod.ext_iff] at h
    | InnerPoll.closedErr => simp [WebSocket.poll, Prod.ext_iff] at h
    | InnerPoll.otherErr e => simp [WebSocket.poll, Prod.ext_iff] at h

/-- The poll loop's outcome does not depend on the framing layer's answer
to the pong sends (it is discarded). -/
theorem poll_sr_irrel (sr sr2 : List Nat → SinkRes) :
    ∀ l : List InnerPoll, WebSocket.poll sr l = WebSocket.poll sr2 l := by
  intro l
  induction l with
  | nil => rfl
  | cons hd tl ih =>
    match hd with
    | InnerPoll.readySome (PMsg.text s) => rfl
    | InnerPoll.readySome (PMsg.binary b) => rfl
    | InnerPoll.readySome (PMsg.ping p) =>
        simp only [WebSocket.poll, ih]
    | InnerPoll.readySome (PMsg.pong p) => exact ih
    | InnerPoll.readyNone => rfl
    | InnerPoll.notReady => rfl
    | InnerPoll.closedErr => rfl
    | InnerPoll.otherErr e => rfl

/-- The for-loop over tokens succeeds iff some token matches. -/
theorem hasUpgradeTok_isSome (ts : List (List Char)) :
    (hasUpgradeTok ts).isSome =
      ts.any (fun t => eqIgnoreAsciiCase t ("upgrade".toList)) := by
  induction ts with
  | nil => rfl
  | cons t ts ih =>
    simp only [hasUpgradeTok, List.any_cons, ← ih]
    cases heq : eqIgnoreAsciiCase t ("upgrade".toList) <;> simp

/-- The `Connection` filter matches iff precondition 2 holds. -/
theorem ifValueHeader_conn_iff (req : Request) :
    ifValueHeader "connection" connection_has_upgrade req = true ↔
      precondConnection req := by
  unfold ifValueHeader precondConnection
  cases hv : getHeader req "connection" with
  | none => simp
  | some v => simp

/-- The `Upgrade` filter matches iff precondition 3 holds. -/
theorem exactIgnoreCase_upgrade_iff (req : Request) :
    exactIgnoreCaseHeader "upgrade" "websocket" req = true ↔
      precondUpgrade req := by
  unfold exactIgnoreCaseHeader precondUpgrade
  cases hv : getHeader req "upgrade" with
  | none => simp
  | some v => simp

/-- The `Sec-WebSocket-Version` filter matches iff precondition 4 holds. -/
theorem exactHeader_version_iff (req : Request) :
    exactHeader "sec-websocket-version" "13" req = true ↔
      precondVersion req := by
  unfold exactHeader precondVersion
  cases hv : getHeader req "sec-websocket-version" with
  | none => simp
  | some v => simp

/-- The key filter extracts a value iff precondition 5 holds. -/
theorem parseKeyHeader_isSome_iff (req : Request) :
    (parseKeyHeader "sec-websocket-key" req).isSome = true ↔ precondKey req := by
  unfold parseKeyHeader precondKey
  cases hv : getHeader req "sec-websocket-key" with
  | none => simp
  | some v =>
    cases hs : headerValueToStr v with
    | none => simp [hs]
    | some s => simp [hs, Accept.from_str]

/-- The whole composition matches iff all five preconditions hold. -/
theorem ws_new_isSome_iff (req : Request) :
    (ws_new req).isSome = true ↔
      precondGet req ∧ precondConnection req ∧ precondUpgrade req ∧
        precondVersion req ∧ precondKey req := by
  unfold ws_new
  split
  case isTrue hc =>
    simp only [Bool.and_eq_true, beq_iff_eq] at hc
    obtain ⟨⟨⟨h1, h2⟩, h3⟩, h4⟩ := hc
    cases hp : parseKeyHeader "sec-websocket-key" req with
    | none =>
      simp only [Option.isSome_none]
      constructor
      · intro h; cases h
      · rintro ⟨-, -, -, -, hk⟩
        have hps := (parseKeyHeader_isSome_iff req).mpr hk
        rw [hp] at hps
        cases hps
    | some a =>
      simp only [Option.isSome_some, true_iff]
      exact ⟨h1, (ifValueHeader_conn_iff req).mp h2,
        (exactIgnoreCase_upgrade_iff req).mp h3,
        (exactHeader_version_iff req).mp h4,
        (parseKeyHeader_isSome_iff req).mp (by rw [hp]; rfl)⟩
  case isFalse hc =>
    simp only [Option.isSome_none]
    constructor
    · intro h; cases h
    · rintro ⟨h1, h2, h3, h4, -⟩
      refine absurd ?_ hc
      simp only [Bool.and_eq_true, beq_iff_eq]
      exact ⟨⟨⟨h1, (ifValueHeader_conn_iff req).mpr h2⟩,
        (exactIgnoreCase_upgrade_iff req).mpr h3⟩,
        (exactHeader_version_iff req).mpr h4⟩

/-! ## The claims -/

set_option maxRecDepth 8000 in
/-- C1: `Accept::from_str` never fails; it returns the base64 encoding of
the 20-byte SHA-1 digest of the key bytes followed by the 36-byte GUID
literal, and on the RFC6455 sample key it yields the RFC's accept value. -/
theorem accept_from_str_spec :
    (∀ s : String, ∃ a : Accept, Accept.from_str s = Except.ok a ∧
        a.val = String.mk (base64Encode (sha1 (strBytes s ++ wsGuidBytes)))) ∧
    wsGuidBytes.length = 36 ∧
    (∀ s : String, (sha1 (strBytes s ++ wsGuidBytes)).length = 20) ∧
    Accept.from_str "dGhlIHNhbXBsZSBub25jZQ==" =
      Except.ok ⟨"s3pPLMBiTxaQ9kYGzzhZRbK+xOo="⟩ :=
  ⟨fun _ => ⟨_, rfl, rfl⟩, rfl, fun _ => sha1_length _, rfl⟩

/-- C2: the stream side never yields a control frame as a `Message`: every
yielded message wraps a text or binary frame, and pong frames are skipped
without returning to the caller. -/
theorem poll_never_yields_control :
    (∀ (sr : List Nat → SinkRes) (l : List InnerPoll) (m : Message)
        (rem : List InnerPoll) (sends : List PMsg),
        WebSocket.poll sr l = (some (PollOut.item m), rem, sends) →
        m.is_text = true ∨ m.is_binary = true) ∧
    (∀ (sr : List Nat → SinkRes) (p : List Nat) (rest : List InnerPoll),
        WebSocket.poll sr (InnerPoll.readySome (PMsg.pong p) :: rest) =
          WebSocket.poll sr rest) := by
  constructor
  · intro sr l m rem sends h
    rcases poll_item_shape sr l m rem sends h with ⟨s, hs⟩ | ⟨b, hb⟩
    · exact Or.inl (by simp [Message.is_text, hs])
    · exact Or.inr (by simp [Message.is_binary, hb])
  · intro sr p rest; rfl

/-- Witness for C2 at a one-frame trace yielding the text message `hi`. -/
theorem poll_never_yields_control_witness :
    (Message.mk (PMsg.text "hi")).is_text = true ∨
      (Message.mk (PMsg.text "hi")).is_binary = true :=
  poll_never_yields_control.1 (fun _ => SinkRes.ready)
    [InnerPoll.readySome (PMsg.text "hi")] ⟨PMsg.text "hi"⟩ [] [] rfl

/-- C3: a close frame (`ConnectionClosed`) or end-of-file ends the stream
as a normal end of sequence; a transport error ends it with a `Kind::Ws`
error, distinguishable from the normal close; while the framing layer
keeps reporting close or end-of-file, every further poll again reports the
normal end. -/
theorem poll_close_eof_vs_error (sr : List Nat → SinkRes)
    (l : List InnerPoll) (e : String) :
    WebSocket.poll sr (InnerPoll.readyNone :: l) = (some PollOut.done, l, []) ∧
    WebSocket.poll sr (InnerPoll.closedErr :: l) = (some PollOut.done, l, []) ∧
    WebSocket.poll sr (InnerPoll.otherErr e :: l) =
      (some (PollOut.failed (ErrorKind.ws e)), l, []) ∧
    PollOut.done ≠ PollOut.failed (ErrorKind.ws e) ∧
    (l ≠ [] → (∀ x ∈ l, x = InnerPoll.readyNone ∨ x = InnerPoll.closedErr) →
      (WebSocket.poll sr l).1 = some PollOut.done) := by
  refine ⟨rfl, rfl, rfl, by simp, ?_⟩
  intro hne hall
  match l, hne with
  | hd :: tl, _ =>
    rcases hall hd (by simp) with rfl | rfl <;> rfl

/-- Witness for C3 on the one-frame close trace. -/
theorem poll_close_eof_vs_error_witness :
    (WebSocket.poll (fun _ => SinkRes.ready) [InnerPoll.closedErr]).1 =
      some PollOut.done :=
  (poll_close_eof_vs_error (fun _ => SinkRes.ready) [InnerPoll.closedErr]
    "e").2.2.2.2 (by decide) (by decide)

/-- C4: on a ping with payload `p` the loop attempts exactly one pong send
carrying the same payload and then keeps pulling frames without returning;
the framing layer's answer to that send is discarded, so no outcome ever
depends on it (drop on not-ready, no retry, no surfaced error). -/
theorem poll_ping_single_pong :
    (∀ (sr : List Nat → SinkRes) (p : List Nat) (rest : List InnerPoll),
        WebSocket.poll sr (InnerPoll.readySome (PMsg.ping p) :: rest) =
          ((WebSocket.poll sr rest).1, (WebSocket.poll sr rest).2.1,
            PMsg.pong p :: (WebSocket.poll sr rest).2.2)) ∧
    (∀ (sr sr2 : List Nat → SinkRes) (l : List InnerPoll),
        WebSocket.poll sr l = WebSocket.poll sr2 l) :=
  ⟨fun _ _ _ => rfl, fun sr sr2 l => poll_sr_irrel sr sr2 l⟩

/-- C5: a request failing any one of the five handshake preconditions is
rejected by the composition: no `Ws` reply (hence no 101 response) is
produced. -/
theorem ws_new_rejects_on_failed_precondition (req : Request)
    (h : ¬ precondGet req ∨ ¬ precondConnection req ∨ ¬ precondUpgrade req ∨
      ¬ precondVersion req ∨ ¬ precondKey req) :
    ws_new req = none := by
  cases hw : ws_new req with
  | none => rfl
  | some w =>
    have hs : (ws_new req).isSome = true := by rw [hw]; rfl
    have hall := (ws_new_isSome_iff req).mp hs
    rcases h with h | h | h | h | h
    · exact (h hall.1).elim
    · exact (h hall.2.1).elim
    · exact (h hall.2.2.1).elim
    · exact (h hall.2.2.2.1).elim
    · exact (h hall.2.2.2.2).elim

/-- Witness for C5 on a request whose method is not `GET`. -/
theorem ws_new_rejects_on_failed_precondition_witness :
    ws_new ⟨"POST", []⟩ = none :=
  ws_new_rejects_on_failed_precondition ⟨"POST", []⟩
    (Or.inl (by unfold precondGet; decide))

/-- C6: for every accept key, `Ws::into_response` yields status 101,
exactly the three headers `connection: upgrade`, `upgrade: websocket` and
`sec-websocket-accept: <key>`, and an empty body. -/
theorem into_response_spec (a : Accept) :
    (Ws.mk a).into_response =
      ⟨101, [("connection", "upgrade"), ("upgrade", "websocket"),
             ("sec-websocket-accept", a.val)], []⟩ := rfl

/-- C7: `connection_has_upgrade` accepts a header value exactly when the
value reads as a string whose split on `", "` contains a token
case-insensitively equal to `upgrade`; unreadable values are rejected. -/
theorem connection_has_upgrade_spec (v : HeaderValue) :
    (connection_has_upgrade v).isSome = specConnectionHasUpgrade v := by
  unfold connection_has_upgrade specConnectionHasUpgrade
  cases hs : headerValueToStr v with
  | none => rfl
  | some s => simp [hasUpgradeTok_isSome]

/-- C8: `start_send` forwards the frame to the framing layer; when the
layer reports ready the call reports ready, and when it hands the same
frame back not-ready the call returns the very same `Message` without
erroring. -/
theorem start_send_backpressure (inner : PMsg → SinkRes) (item : Message) :
    (inner item.inner = SinkRes.ready →
      WebSocket.start_send inner item = Except.ok StartSend.ready) ∧
    (inner item.inner = SinkRes.notReadyRes item.inner →
      WebSocket.start_send inner item =
        Except.ok (StartSend.notReadyItem item)) := by
  constructor <;> intro h <;> simp [WebSocket.start_send, h]

/-- Witness for C8 with a framing layer that always hands the frame back. -/
theorem start_send_backpressure_witness :
    WebSocket.start_send (fun m => SinkRes.notReadyRes m) (Message.text "a") =
      Except.ok (StartSend.notReadyItem (Message.text "a")) :=
  (start_send_backpressure (fun m => SinkRes.notReadyRes m)
    (Message.text "a")).2 rfl

/-- C9: every `Message` reachable through the public interface wraps a
text or binary frame, so `as_bytes` never hits the `unreachable` arm on
such values. -/
theorem as_bytes_total_on_reachable (m : Message) (hm : reachableMessage m) :
    (Message.as_bytes m).isSome = true := by
  rcases hm with ⟨s, rfl⟩ | ⟨v, rfl⟩ | ⟨sr, l, rem, sends, h⟩
  · rfl
  · rfl
  · rcases poll_item_shape sr l m rem sends h with ⟨s, hs⟩ | ⟨b, hb⟩
    · simp [Message.as_bytes, hs]
    · simp [Message.as_bytes, hb]

/-- Witness for C9 on a constructed text message. -/
theorem as_bytes_total_on_reachable_witness :
    (Message.as_bytes (Message.text "a")).isSome = true :=
  as_bytes_total_on_reachable (Message.text "a") (Or.inl ⟨"a", rfl⟩)

/-- C10: the constructors and accessors round-trip: a text message is
text, reads back its string and its UTF-8 bytes; a binary message is
binary, refuses `to_str` and reads back its bytes. -/
theorem message_roundtrip (s : String) (v : List Nat) :
    (Message.text s).is_text = true ∧
    (Message.text s).to_str = Except.ok s ∧
    (Message.text s).as_bytes = some (strBytes s) ∧
    (Message.binary v).is_binary = true ∧
    (Message.binary v).to_str = Except.error () ∧
    (Message.binary v).as_bytes = some v :=
  ⟨rfl, rfl, rfl, rfl, rfl, rfl⟩

end WarpWs
